import Mathlib

/-!
Verification of the FutureCrop price-prediction service
(`futureprediction/backend/app.py`) against its design document.

The Python module is shallowly embedded below:

* prices and other numbers are modelled as rationals (`ℚ`); Python's
  `round(x, 2)` is modelled by `round2` (rounding `x*100` to the nearest
  integer; Python uses round-half-to-even on binary floats, which differs
  from `round` here only on exact `.xx5` ties, and no claim depends on a
  tie);
* the random draws of `random.gauss` / `random.uniform` are passed in
  explicitly (`changes : Nat → ℚ` gives the per-step percentage change,
  `draw : ℚ` the uniform fallback draw), as the design document itself
  prescribes for testability;
* `datetime.strptime(_, "%Y-%m-%d")` is modelled by `parseYMD`
  (exactly 4 year digits with year ≥ 1, a 1-2 digit month 1-12, and a
  day that is either a 1-2 digit run or a space followed by one digit
  1-9, valid for the month under the proleptic Gregorian leap rule —
  mirroring CPython's regexes `\d\d\d\d`, `1[0-2]|0[1-9]|[1-9]` and
  `3[01]|[12]\d|0[1-9]|[1-9]| [1-9]` for this format, with the
  trailing unconverted-data check);
* Python string methods `.lower()` / `.strip()` are modelled on the
  ASCII range (`lowerStr`, `trimStr`); the dataset CSV and the request
  strings exercised by the spec are ASCII;
* `list.sort(key=..., reverse=True)` (Timsort, stable, with `reverse`
  preserving the relative order of equal keys) is modelled by the stable
  descending insertion sort `sortDesc`; `sorted(...)` inside
  `statistics.median` by the ascending `sortAsc`;
* `csv.DictReader` rows are modelled by `RawRow`, whose fields are
  `absent` (column missing from the header, so `dict.get` returns the
  default), `null` (column present but the data row was short, so the
  value is Python `None`) or `val s`; calling `.strip()` on `None`
  raises `AttributeError`, modelled by `Except.error`;
* `float(s)` is modelled by `parseFloat` (optional sign, decimal digits
  with optional fraction and exponent; the rarely-used `inf`/`nan` and
  digit-underscore literals are not modelled — no claim depends on them).
-/

/-! ## Characters and strings -/

/-- Digits of a decimal numeral to its value (`int(...)` on a digit run). -/
def digitsToNat (l : List Char) : Nat :=
  l.foldl (fun a ch => a * 10 + (ch.toNat - (48 : Nat))) 0

/-- Python's `str.lower()` (ASCII range). -/
def lowerStr (s : String) : String := ⟨s.data.map Char.toLower⟩

/-- ASCII whitespace stripped by Python's `str.strip()`. -/
def isPyWS (c : Char) : Bool :=
  c == ' ' || c == '\t' || c == '\n' || c == '\r' || c == '\x0b' || c == '\x0c'

/-- Python's `str.strip()` (ASCII whitespace). -/
def trimStr (s : String) : String :=
  ⟨((s.data.dropWhile isPyWS).reverse.dropWhile isPyWS).reverse⟩

/-- Is `p` a prefix of the second list?  (Bool helper for `hasSub`.) -/
def startsWithL : List Char → List Char → Bool
  | [], _ => true
  | _ :: _, [] => false
  | a :: as, b :: bs => a == b && startsWithL as bs

/-- Substring containment on char lists (`needle in hay` for Python str). -/
def hasSub (needle : List Char) : List Char → Bool
  | [] => needle.isEmpty
  | c :: cs => startsWithL needle (c :: cs) || hasSub needle cs

/-- Python's `needle in hay` for strings. -/
def strContains (hay needle : String) : Bool := hasSub needle.data hay.data

/-! ## Dates (`datetime.strptime(_, "%Y-%m-%d")`) -/

/-- Proleptic Gregorian leap-year rule used by `datetime`. -/
def isLeap (y : Nat) : Bool := y % 4 == 0 && (y % 100 != 0 || y % 400 == 0)

/-- Days in a month, as validated by `datetime`. -/
def daysInMonth (y m : Nat) : Nat :=
  if m = 2 then (if isLeap y then 29 else 28)
  else if m = 4 ∨ m = 6 ∨ m = 9 ∨ m = 11 then 30
  else 31

/-- CPython's `%d` directive at the end of the format string, on the
remainder of the input: either a space followed by a single digit 1-9
(the `" [1-9]"` alternative) or a 1-2 digit run; the whole remainder
must be consumed (strptime's unconverted-data check).  Since `%d` is
the final directive here, a digit run whose value survives the later
1-`daysInMonth` validation is accepted exactly when some alternative of
`3[01]|[12]\d|0[1-9]|[1-9]` consumes the whole run, so the run-plus-
value-check formulation matches the regex. -/
def parseDay (l : List Char) : Option Nat :=
  match l with
  | ' ' :: rest =>
    match rest with
    | [c] => if c.isDigit ∧ c ≠ '0' then some (c.toNat - (48 : Nat)) else none
    | _ => none
  | _ =>
    let ds := l.takeWhile Char.isDigit
    let r5 := l.dropWhile Char.isDigit
    if ds.length = 0 ∨ 2 < ds.length then none else
    if ¬ r5.isEmpty then none else
    some (digitsToNat ds)

/-- Model of `datetime.strptime(s, "%Y-%m-%d")`, returning
`(year, month, day)`.  CPython matches `%Y` against exactly four digits
(`\d\d\d\d`), `%m` against `1[0-2]|0[1-9]|[1-9]` (1-2 digits, value
1-12, no space padding), `%d` as in `parseDay`, requires the whole
string to be consumed, and then `datetime` validates year ≥ 1, month
1-12 and day 1-`daysInMonth`.  Digit runs are contiguous, so a run
longer than the directive allows can never be rescued by backtracking
(the following literal `-` cannot match a digit), and maximal-munch
runs of the checked lengths give the same accept/reject behaviour as
the regex. -/
def parseYMD (l : List Char) : Option (Nat × Nat × Nat) :=
  let ys := l.takeWhile Char.isDigit
  let r1 := l.dropWhile Char.isDigit
  if ys.length ≠ 4 then none else
  match r1 with
  | '-' :: r2 =>
    let ms := r2.takeWhile Char.isDigit
    let r3 := r2.dropWhile Char.isDigit
    if ms.length = 0 ∨ 2 < ms.length then none else
    match r3 with
    | '-' :: r4 =>
      match parseDay r4 with
      | none => none
      | some d =>
        let y := digitsToNat ys
        let m := digitsToNat ms
        if 1 ≤ y ∧ 1 ≤ m ∧ m ≤ 12 ∧ 1 ≤ d ∧ d ≤ daysInMonth y m
        then some (y, m, d) else none
    | _ => none
  | _ => none

/-- Function `month_to_date` from app.py: `strptime(ym + "-01", "%Y-%m-%d")`,
`none` standing for the raised `ValueError`. -/
def month_to_date (ym : String) : Option (Nat × Nat × Nat) :=
  parseYMD (ym ++ "-01").data

/-- Strict lexicographic order on `(year, month, day)` triples:
`datetime` comparison for dates. -/
def dateLt (a b : Nat × Nat × Nat) : Prop :=
  a.1 < b.1 ∨ (a.1 = b.1 ∧ (a.2.1 < b.2.1 ∨ (a.2.1 = b.2.1 ∧ a.2.2 < b.2.2)))

instance : DecidableRel dateLt := fun a b => by
  unfold dateLt; infer_instance

/-! ## The data model -/

/-- A row of the in-memory dataset (`MOCK_DATA` entries). -/
structure Record where
  state : String
  district : String
  market : String
  crop : String
  date : String
  price : ℚ
  unit : String
deriving DecidableEq, Repr

/-! ## Price Finder (`find_recent_price`) -/

/-- The `matches(row)` closure of `find_recent_price` (`matches` is a
reserved word in Lean, hence the name): crop must match
case-insensitively; state likewise but only when the request state is
non-empty (Python truthiness); district/market exclude a row only when
both the request value and the row field are non-empty and differ. -/
def matchesRow (state district crop market : String) (r : Record) : Bool :=
  if lowerStr r.crop ≠ lowerStr crop then false
  else if state ≠ "" ∧ lowerStr r.state ≠ lowerStr state then false
  else if district ≠ "" ∧ r.district ≠ "" ∧ lowerStr r.district ≠ lowerStr district then false
  else if market ≠ "" ∧ r.market ≠ "" ∧ lowerStr r.market ≠ lowerStr market then false
  else true

/-- The candidate list of `find_recent_price`: the full filter pass,
relaxed to crop-only matching over the whole dataset when empty. -/
def candidatesFor (data : List Record) (state district crop market : String) :
    List Record :=
  let primary := data.filter (fun r => matchesRow state district crop market r)
  if primary = [] then data.filter (fun r => lowerStr r.crop == lowerStr crop)
  else primary

/-- List `with_dates`: candidates whose date parses, paired with the parsed
date, in original dataset order. -/
def withDatesFor (cands : List Record) : List ((Nat × Nat × Nat) × Record) :=
  cands.filterMap (fun r => (parseYMD r.date.data).map (fun dt => (dt, r)))

/-- One step of the stable descending insertion sort: `x` goes in front
of the first element whose date is not later than `x`'s. -/
def insertDesc (x : (Nat × Nat × Nat) × Record) :
    List ((Nat × Nat × Nat) × Record) → List ((Nat × Nat × Nat) × Record)
  | [] => [x]
  | y :: ys => if dateLt x.1 y.1 then y :: insertDesc x ys else x :: y :: ys

/-- Model of `with_dates.sort(key=lambda x: x[0], reverse=True)`: a stable sort,
descending by date, equal dates keeping their original relative order
(CPython's Timsort with `reverse=True` preserves stability). -/
def sortDesc : List ((Nat × Nat × Nat) × Record) → List ((Nat × Nat × Nat) × Record)
  | [] => []
  | x :: xs => insertDesc x (sortDesc xs)

/-- Ascending insertion step for `sorted` over rationals. -/
def insertAsc (x : ℚ) : List ℚ → List ℚ
  | [] => [x]
  | y :: ys => if x ≤ y then x :: y :: ys else y :: insertAsc x ys

/-- Model of `sorted(...)` over rationals. -/
def sortAsc : List ℚ → List ℚ
  | [] => []
  | x :: xs => insertAsc x (sortAsc xs)

/-- Model of `statistics.median`: sort; odd length takes the middle element, even
length averages the two middle elements.  (Only ever applied to non-empty
lists; on `[]` the library raises, here a junk value is returned.) -/
def median (l : List ℚ) : ℚ :=
  let s := sortAsc l
  let n := s.length
  if n % 2 = 1 then s.getD (n / 2) 0
  else (s.getD (n / 2 - 1) 0 + s.getD (n / 2) 0) / 2

/-- The selection stage of `find_recent_price` on the final candidate
list: most recent parseable date first; otherwise the median of the
positive prices grafted onto a copy of the first candidate; otherwise
none. -/
def pickBest (cands : List Record) : Option Record :=
  match cands with
  | [] => none
  | c0 :: _ =>
    match sortDesc (withDatesFor cands) with
    | (_, r) :: _ => some r
    | [] =>
      let prices := cands.filterMap (fun r => if 0 < r.price then some r.price else none)
      if prices.isEmpty then none
      else some { c0 with price := median prices }

/-- Function `find_recent_price(state, district, crop, market)` over an explicit
dataset (the module-global `MOCK_DATA` made a parameter). -/
def find_recent_price (data : List Record) (state district crop market : String) :
    Option Record :=
  if data.isEmpty then none
  else pickBest (candidatesFor data state district crop market)

/-! ## Predictor (`simple_predict`) -/

def low_vol : List String := [("rice"), ("wheat"), ("maize"), ("paddy")]
def med_vol : List String := [("onion"), ("tomato"), ("potato"), ("capsicum"), ("brinjal")]
def high_vol : List String := [("tomato"), ("onion")]

/-- The volatility coefficient chosen by `simple_predict` (substring
match of each category word against the lower-cased crop, categories
checked low, then medium, then high, else the 5% default).  The
coefficient is the standard deviation fed to `random.gauss`; in this
embedding the gauss draws themselves are the `changes` oracle, so the
coefficient is kept as its own definition. -/
def volFor (crop : String) : ℚ :=
  let c := lowerStr crop
  if low_vol.any (fun x => strContains c x) then 2/100
  else if med_vol.any (fun x => strContains c x) then 6/100
  else if high_vol.any (fun x => strContains c x) then 12/100
  else 5/100

/-- Python's `round(x, 2)`. -/
def round2 (q : ℚ) : ℚ := (round (q * 100) : ℤ) / 100

/-- The random walk of `simple_predict`: each month the price is
multiplied by `1 + change` and floored at `0.01`. -/
def walk (p : ℚ) (l : List ℚ) : ℚ :=
  l.foldl (fun price ch => max (1/100) (price * (1 + ch))) p

/-- Function `simple_predict(current_price, months_ahead, crop)`, with the
`random.gauss(0, vol)` draw of step `i` supplied as `changes i`. -/
def simple_predict (current_price : ℚ) (months_ahead : Nat) (crop : String)
    (changes : Nat → ℚ) : ℚ :=
  let _vol := volFor crop   -- std-dev handed to random.gauss; the draws arrive via changes
  round2 (walk current_price ((List.range months_ahead).map changes)
    * (1 + 1/100 * (months_ahead : ℚ)))

/-! ## Request handler (`/predict`) -/

structure PredictRequest where
  state : String
  district : Option String
  market : Option String
  crop : String
  month : String
deriving DecidableEq, Repr

structure PredictResponse where
  state : String
  district : Option String
  market : Option String
  crop : String
  month : String
  unit : String
  currentPrice : ℚ
  predictedPrice : ℚ
  method : String
deriving DecidableEq, Repr

/-- Table `base_map` of the synthetic fallback. -/
def base_map : List (String × ℚ) :=
  [(("tomato"), 18), (("onion"), 22), (("potato"), 15),
   (("rice"), 30), (("wheat"), 25), (("maize"), 20),
   (("banana"), 30), (("mango"), 50)]

/-- Value `months_ahead` as computed by the handler: signed month difference,
clamped at 0. -/
def monthsAheadFor (nowY nowM ty tm : Nat) : Nat :=
  (if ((ty : Int) - (nowY : Int)) * 12 + ((tm : Int) - (nowM : Int)) < 0 then 0
   else ((ty : Int) - (nowY : Int)) * 12 + ((tm : Int) - (nowM : Int))).toNat

/-- Lines 176-191 of the handler: resolve the current price, unit and
method tag, from the dataset record when it exists with a positive
price, else from the synthetic base table / uniform draw. -/
def resolveCurrent (data : List Record) (draw : ℚ) (req : PredictRequest) :
    ℚ × String × String :=
  match find_recent_price data req.state (req.district.getD (""))
      req.crop (req.market.getD ("")) with
  | some r =>
    if 0 < r.price then (r.price, (if r.unit = "" then ("kg") else r.unit), ("mock-data"))
    else ((base_map.lookup (lowerStr req.crop)).getD draw, ("kg"), ("synthetic"))
  | none => ((base_map.lookup (lowerStr req.crop)).getD draw, ("kg"), ("synthetic"))

/-- The `/predict` handler.  `Except.error 400` is the
`HTTPException(status_code=400)` raised on an unparseable month;
`nowY`/`nowM` stand for `datetime.now()`, `changes` for the per-step
gauss draws and `draw` for the `random.uniform(10, 40)` fallback. -/
def predict (data : List Record) (nowY nowM : Nat) (changes : Nat → ℚ)
    (draw : ℚ) (req : PredictRequest) : Except Nat PredictResponse :=
  match month_to_date req.month with
  | none => .error 400
  | some (ty, tm, _) =>
    let ma : Nat := monthsAheadFor nowY nowM ty tm
    let cum := resolveCurrent data draw req
    let predicted := simple_predict cum.1 ma req.crop changes
    .ok { state := req.state, district := req.district, market := req.market,
          crop := req.crop, month := req.month, unit := cum.2.1,
          currentPrice := round2 cum.1, predictedPrice := round2 predicted,
          method := cum.2.2 }

/-! ## Dataset loader (`load_mock_data`) -/

/-- One literal of Python's `float(s)` grammar after stripping: optional
sign, then digits with an optional fractional part (at least one digit
overall), with an optional exponent.  `inf`/`nan` and digit underscores
are not modelled. -/
def parseUnsignedFloat (l : List Char) : Option (ℚ × List Char) :=
  let ip := l.takeWhile Char.isDigit
  let r1 := l.dropWhile Char.isDigit
  match r1 with
  | '.' :: r2 =>
    let fp := r2.takeWhile Char.isDigit
    let r3 := r2.dropWhile Char.isDigit
    if ip.isEmpty ∧ fp.isEmpty then none
    else some ((digitsToNat ip : ℚ) + (digitsToNat fp : ℚ) / (10 ^ fp.length), r3)
  | _ => if ip.isEmpty then none else some ((digitsToNat ip : ℚ), r1)

/-- The exponent suffix of a float literal, applied to the mantissa. -/
def applyExponent (v : ℚ) (l : List Char) : Option ℚ :=
  match l with
  | [] => some v
  | e :: r =>
    if e = 'e' ∨ e = 'E' then
      let (neg, r2) :=
        match r with
        | '+' :: r2 => (false, r2)
        | '-' :: r2 => (true, r2)
        | _ => (false, r)
      let ds := r2.takeWhile Char.isDigit
      let r3 := r2.dropWhile Char.isDigit
      if ds.isEmpty ∨ ¬ r3.isEmpty then none
      else some (if neg then v / 10 ^ digitsToNat ds else v * 10 ^ digitsToNat ds)
    else none

/-- Python's `float(s)` on a string: strip whitespace, optional sign,
mantissa, optional exponent; `none` is the raised `ValueError`. -/
def parseFloat (s : String) : Option ℚ :=
  let l := (s.data.dropWhile isPyWS).reverse.dropWhile isPyWS |>.reverse
  let (neg, l2) :=
    match l with
    | '+' :: t => (false, t)
    | '-' :: t => (true, t)
    | _ => (false, l)
  match parseUnsignedFloat l2 with
  | none => none
  | some (v, rest) =>
    (applyExponent v rest).map (fun w => if neg then -w else w)

/-- A `csv.DictReader` cell as seen by `load_mock_data`: the column can
be `absent` from the header (`dict.get` returns the default), the data
row can be short so the value is Python `None` (`null`), or a string. -/
inductive CsvField where
  | absent : CsvField
  | null : CsvField
  | val : String → CsvField
deriving DecidableEq, Repr

/-- The value `row.get(k, d)` produces when it is a string (junk on
`null`, where Python instead hands `None` to `.strip()`). -/
def strOf (f : CsvField) (dflt : String) : String :=
  match f with
  | .absent => dflt
  | .null => dflt
  | .val s => s

/-- A raw CSV row keyed by the seven header columns. -/
structure RawRow where
  state : CsvField
  district : CsvField
  market : CsvField
  crop : CsvField
  date : CsvField
  price : CsvField
  unit : CsvField
deriving DecidableEq, Repr

/-- Model of `float(row.get("price") or 0)` guarded by `try/except`: a missing or
falsy (empty) cell is `0`, an unparseable string falls back to `0.0`. -/
def priceOf (f : CsvField) : ℚ :=
  match f with
  | .absent => 0
  | .null => 0
  | .val s => if s = "" then 0 else (parseFloat s).getD 0

/-- The loop body of `load_mock_data` for one row.  Each string column
goes through `.strip()`; if any of those cells is Python `None` (a data
row shorter than the header) that call raises `AttributeError`, which
`load_mock_data` does not catch — modelled as `Except.error`.  The
price conversion alone is wrapped in `try/except`. -/
def loadRow (r : RawRow) : Except String Record :=
  if r.state = .null ∨ r.district = .null ∨ r.market = .null ∨ r.crop = .null
      ∨ r.date = .null ∨ r.unit = .null then
    .error ("AttributeError: NoneType object has no attribute strip")
  else
    .ok { state := trimStr (strOf r.state ("")),
          district := trimStr (strOf r.district ("")),
          market := trimStr (strOf r.market ("")),
          crop := trimStr (strOf r.crop ("")),
          date := trimStr (strOf r.date ("")),
          price := priceOf r.price,
          unit := (let u := trimStr (strOf r.unit ("kg"));
                   if u = "" then ("kg") else u) }

/-- Function `load_mock_data(csv_path)`: a missing file (`none`) yields the empty
dataset; otherwise every row is converted in order, and an uncaught
exception from any row aborts the load. -/
def load_mock_data (file : Option (List RawRow)) : Except String (List Record) :=
  match file with
  | none => .ok []
  | some rows => rows.mapM loadRow

/-- A raw row with none of Python's `None` cells (every column is either
absent from the header or carries a string): exactly the rows on which
`load_mock_data` cannot raise. -/
def noNull (r : RawRow) : Prop :=
  r.state ≠ .null ∧ r.district ≠ .null ∧ r.market ≠ .null ∧ r.crop ≠ .null
    ∧ r.date ≠ .null ∧ r.unit ≠ .null

instance (r : RawRow) : Decidable (noNull r) := by
  unfold noNull; infer_instance

/-- What the loader is supposed to make of one kept row: string fields
whitespace-trimmed, a blank unit defaulted to "kg" (so never empty), and
a price that defaults to 0 whenever its cell fails to parse as a float
(missing and empty cells included). -/
def rowSpec (raw : RawRow) (rec : Record) : Prop :=
  rec.state = trimStr (strOf raw.state ("")) ∧
  rec.district = trimStr (strOf raw.district ("")) ∧
  rec.market = trimStr (strOf raw.market ("")) ∧
  rec.crop = trimStr (strOf raw.crop ("")) ∧
  rec.date = trimStr (strOf raw.date ("")) ∧
  rec.unit ≠ "" ∧
  ((∀ s, raw.price = .val s → s ≠ "" → parseFloat s = none) → rec.price = 0)

/-- A month string in strict YYYY-MM format, as the design document's
words describe it: four year digits (a real calendar year, so not 0000)
a dash, and two month digits making a month 01-12.  Written from the
spec, to be compared with what the handler actually accepts. -/
def isYYYYMM (s : String) : Bool :=
  match s.data with
  | [y1, y2, y3, y4, h, m1, m2] =>
    y1.isDigit && y2.isDigit && y3.isDigit && y4.isDigit && h == '-'
      && m1.isDigit && m2.isDigit
      && decide (1 ≤ digitsToNat [y1, y2, y3, y4])
      && decide (1 ≤ digitsToNat [m1, m2]) && decide (digitsToNat [m1, m2] ≤ 12)
  | _ => false

/-! ## Concrete fixtures used by witnesses and counterexamples -/

/-- A dataset row whose price is positive but below half a cent
(`mkRat` keeps the literal kernel-computable). -/
def rTiny : Record :=
  { state := "A", district := "", market := "", crop := "rice",
    date := "2025-01-01", price := mkRat 1 1000, unit := "kg" }

/-- Request hitting `rTiny` in its own month. -/
def reqTiny : PredictRequest :=
  { state := "A", district := none, market := none, crop := "rice",
    month := "2025-01" }

/-- Synthetic-branch request (empty dataset, crop in the base table). -/
def reqTom : PredictRequest :=
  { state := "X", district := none, market := none, crop := "Tomato",
    month := "2025-03" }

/-- The response the handler produces for `reqTom` on an empty dataset
in January 2025 with zero gauss draws and a uniform draw of 20. -/
def respTom : PredictResponse :=
  { state := "X", district := none, market := none, crop := "Tomato",
    month := "2025-03", unit := (resolveCurrent [] 20 reqTom).2.1,
    currentPrice := round2 (resolveCurrent [] 20 reqTom).1,
    predictedPrice := round2 (simple_predict (resolveCurrent [] 20 reqTom).1
      (monthsAheadFor 2025 1 2025 3) ("Tomato") (fun _ => 0)),
    method := (resolveCurrent [] 20 reqTom).2.2 }

/-- Request `reqTom` with a leniently formatted month (not strict YYYY-MM). -/
def reqLenient : PredictRequest := { reqTom with month := "2025-1" }

/-- Request `reqTom` with an invalid month 13. -/
def reqBad : PredictRequest := { reqTom with month := "2025-13" }

/-- Request `reqTom` with a non-numeric month. -/
def reqDec : PredictRequest := { reqTom with month := "December" }

/-- The design document's Rice example rows. -/
def rRice1 : Record :=
  { state := "S", district := "", market := "", crop := "Rice",
    date := "2025-01-01", price := 30, unit := "kg" }

def rRice2 : Record :=
  { state := "S", district := "", market := "", crop := "Rice",
    date := "2025-03-01", price := 32, unit := "kg" }

/-- Dateless rows for the median example. -/
def rMed1 : Record :=
  { state := "S", district := "", market := "", crop := "x",
    date := "", price := 10, unit := "kg" }

def rMed2 : Record := { rMed1 with price := 20 }

def rMed3 : Record := { rMed1 with price := 30 }

/-- A crop-matching row with no parseable date and a zero price. -/
def rZero : Record :=
  { state := "A", district := "", market := "", crop := "rice",
    date := "", price := 0, unit := "kg" }

/-- Row `rZero` with a positive price. -/
def rPos : Record := { rZero with price := 5 }

/-- A lower-case tomato row for the case-insensitivity witness. -/
def rTom : Record :=
  { state := "kerala", district := "", market := "", crop := "tomato",
    date := "2025-01-01", price := 12, unit := "kg" }

/-- A complete raw CSV row (whitespace around cells, a bad price). -/
def rawGood : RawRow :=
  { state := .val (" X "), district := .val ("d"), market := .val ("m"),
    crop := .val ("c"), date := .val (""), price := .val ("bad"),
    unit := .val (" ") }

/-- A raw CSV data row shorter than the header: `DictReader` fills the
missing cells with `None`. -/
def rawShort : RawRow :=
  { state := .val ("X"), district := .val ("Y"), market := .null,
    crop := .null, date := .null, price := .null, unit := .null }

/-- HTTP status of a handler outcome (FastAPI returns 200 on success). -/
def statusOf (e : Except Nat PredictResponse) : Nat :=
  match e with
  | .error s => s
  | .ok _ => 200

/-- Field `currentPrice` of a successful response. -/
def respCurrent (e : Except Nat PredictResponse) : Option ℚ :=
  (e.toOption).map (fun r => r.currentPrice)

/-- Field `predictedPrice` of a successful response. -/
def respPredicted (e : Except Nat PredictResponse) : Option ℚ :=
  (e.toOption).map (fun r => r.predictedPrice)

/-! ## Helper lemmas -/

theorem round2_ge (q : ℚ) (h : 1/100 ≤ q) : 1/100 ≤ round2 q := by
  have h1 : (1 : ℤ) ≤ round (q * 100) := by
    rw [round_eq]
    apply Int.le_floor.mpr
    push_cast
    linarith
  have h2 : (1 : ℚ) ≤ ((round (q * 100) : ℤ) : ℚ) := by exact_mod_cast h1
  unfold round2
  linarith

theorem round2_pos (q : ℚ) (h : 1/100 ≤ q) : 0 < round2 q :=
  lt_of_lt_of_le (by norm_num) (round2_ge q h)

theorem round2_round2 (q : ℚ) : round2 (round2 q) = round2 q := by
  unfold round2
  rw [div_mul_cancel₀ _ (by norm_num : (100 : ℚ) ≠ 0), round_intCast]

theorem walk_ge (l : List ℚ) (p : ℚ) (h : 1/100 ≤ p) : 1/100 ≤ walk p l := by
  induction l generalizing p with
  | nil => exact h
  | cons c t ih =>
    show 1/100 ≤ walk (max (1/100) (p * (1 + c))) t
    exact ih _ (le_max_left _ _)

/-- Zero months ahead: no walk steps, bias factor 1. -/
theorem simple_predict_zero (p : ℚ) (crop : String) (changes : Nat → ℚ) :
    simple_predict p 0 crop changes = round2 p := by
  unfold simple_predict walk
  norm_num

theorem simple_predict_ge (p : ℚ) (ma : Nat) (crop : String) (changes : Nat → ℚ)
    (h : 1/100 ≤ p) : 1/100 ≤ simple_predict p ma crop changes := by
  unfold simple_predict
  apply round2_ge
  have hw : 1/100 ≤ walk p ((List.range ma).map changes) := walk_ge _ _ h
  have hb : (1 : ℚ) ≤ 1 + 1/100 * (ma : ℚ) := by
    have hma : (0 : ℚ) ≤ (ma : ℚ) := by positivity
    linarith
  calc (1:ℚ)/100 ≤ walk p ((List.range ma).map changes) := hw
    _ = walk p ((List.range ma).map changes) * 1 := by ring
    _ ≤ walk p ((List.range ma).map changes) * (1 + 1/100 * (ma : ℚ)) := by
        apply mul_le_mul_of_nonneg_left hb
        linarith

theorem high_vol_sub_med_vol (c : String) :
    high_vol.any (fun x => strContains c x) = true →
    med_vol.any (fun x => strContains c x) = true := by
  simp only [high_vol, med_vol, List.any_cons, List.any_nil, Bool.or_eq_true]
  tauto

/-! ## Claims -/

/-- C3: `simple_predict` chooses the volatility coefficient by substring
match against the category lists in the fixed order low (0.02), medium
(0.06), high (0.12), default 0.05 — and since both high-volatility words
also sit in the medium list, the 0.12 branch can never be selected. -/
theorem volFor_order_and_high_unreachable (crop : String) :
    (low_vol.any (fun x => strContains (lowerStr crop) x) = true →
      volFor crop = 2/100) ∧
    (low_vol.any (fun x => strContains (lowerStr crop) x) = false →
      med_vol.any (fun x => strContains (lowerStr crop) x) = true →
      volFor crop = 6/100) ∧
    (low_vol.any (fun x => strContains (lowerStr crop) x) = false →
      med_vol.any (fun x => strContains (lowerStr crop) x) = false →
      volFor crop = 5/100) ∧
    volFor crop ≠ 12/100 := by
  unfold volFor
  refine ⟨fun hl => by simp [hl], fun hl hm => by simp [hl, hm], fun hl hm => ?_, ?_⟩
  · have hh : high_vol.any (fun x => strContains (lowerStr crop) x) = false := by
      cases hhv : high_vol.any (fun x => strContains (lowerStr crop) x) with
      | false => rfl
      | true => rw [high_vol_sub_med_vol _ hhv] at hm; cases hm
    simp [hl, hm, hh]
  · cases hl : low_vol.any (fun x => strContains (lowerStr crop) x) with
    | true => simp [hl]; norm_num
    | false =>
      cases hm : med_vol.any (fun x => strContains (lowerStr crop) x) with
      | true => simp [hl, hm]; norm_num
      | false =>
        have hh : high_vol.any (fun x => strContains (lowerStr crop) x) = false := by
          cases hhv : high_vol.any (fun x => strContains (lowerStr crop) x) with
          | false => rfl
          | true => rw [high_vol_sub_med_vol _ hhv] at hm; cases hm
        simp [hl, hm, hh]; norm_num

/-- C3 witness: "Tomato" misses the low list, hits the medium list, and
gets 0.06. -/
theorem volFor_order_witness : volFor ("Tomato") = 6/100 :=
  (volFor_order_and_high_unreachable ("Tomato")).2.1 (by decide) (by decide)

/-- C4: a target month at or before the current month gives
`monthsAhead = 0`; with zero months the walk contributes nothing and the
bias factor is 1, so the prediction is the current price up to rounding
to 2 decimal places (and after the response's own rounding the two
returned fields agree exactly). -/
theorem monthsAhead_zero_prediction (p : ℚ) (crop : String) (changes : Nat → ℚ)
    (nowY nowM ty tm : Nat) (h1 : 1 ≤ tm) (h2 : tm ≤ 12) (h3 : 1 ≤ nowM)
    (h4 : nowM ≤ 12) (h : ty < nowY ∨ (ty = nowY ∧ tm ≤ nowM)) :
    monthsAheadFor nowY nowM ty tm = 0 ∧
    simple_predict p 0 crop changes = round2 p ∧
    round2 (simple_predict p 0 crop changes) = round2 p := by
  have hz : ((ty : Int) - (nowY : Int)) * 12 + ((tm : Int) - (nowM : Int)) ≤ 0 := by
    rcases h with h | ⟨h, h5⟩ <;> omega
  have hma : monthsAheadFor nowY nowM ty tm = 0 := by
    unfold monthsAheadFor
    split_ifs with hlt
    · rfl
    · omega
  exact ⟨hma, simple_predict_zero p crop changes,
    by rw [simple_predict_zero p crop changes, round2_round2]⟩

/-- C4 witness: November 2025 requested in December 2025. -/
theorem monthsAhead_zero_witness :
    monthsAheadFor 2025 12 2025 11 = 0 ∧
    simple_predict 18 0 ("Tomato") (fun _ => 0) = round2 18 ∧
    round2 (simple_predict 18 0 ("Tomato") (fun _ => 0)) = round2 18 :=
  monthsAhead_zero_prediction 18 ("Tomato") (fun _ => 0) 2025 12 2025 11
    (by decide) (by decide) (by decide) (by decide) (Or.inr ⟨rfl, by decide⟩)

/-- C6: with a non-empty request state, the primary filter matches a row
exactly when crop and state agree case-insensitively and neither the
district nor the market pair is non-empty-on-both-sides-and-different:
a record with a blank district (or market) is never excluded by that
filter. -/
theorem matchesRow_characterisation (s d c m : String) (r : Record) (hs : s ≠ ("")) :
    matchesRow s d c m r = true ↔
      (lowerStr r.crop = lowerStr c ∧ lowerStr r.state = lowerStr s ∧
       (d = "" ∨ r.district = "" ∨ lowerStr r.district = lowerStr d) ∧
       (m = "" ∨ r.market = "" ∨ lowerStr r.market = lowerStr m)) := by
  unfold matchesRow
  split_ifs with hcrop hstate hdist hmkt <;>
    simp_all <;> tauto

/-- C6 witness: request crop "TOMATO" matches a dataset row with crop
"tomato" (state matched case-insensitively, blank district/market never
excluded). -/
theorem matchesRow_case_insensitive_witness :
    matchesRow ("Kerala") ("") ("TOMATO") ("") rTom = true :=
  (matchesRow_characterisation ("Kerala") ("") ("TOMATO") ("") rTom
    (by decide)).mpr (by decide)

theorem dateLt_irrefl (a : Nat × Nat × Nat) : ¬ dateLt a a := by
  unfold dateLt; omega

theorem dateLt_asymm (a b : Nat × Nat × Nat) : dateLt a b → ¬ dateLt b a := by
  unfold dateLt; omega

theorem not_dateLt_trans (a b c : Nat × Nat × Nat) :
    ¬ dateLt a b → ¬ dateLt b c → ¬ dateLt a c := by
  unfold dateLt; omega

theorem length_insertDesc (x : (Nat × Nat × Nat) × Record)
    (l : List ((Nat × Nat × Nat) × Record)) :
    (insertDesc x l).length = l.length + 1 := by
  induction l with
  | nil => rfl
  | cons y ys ih =>
    unfold insertDesc
    split_ifs <;> simp [ih]

theorem length_sortDesc (l : List ((Nat × Nat × Nat) × Record)) :
    (sortDesc l).length = l.length := by
  induction l with
  | nil => rfl
  | cons x xs ih =>
    show (insertDesc x (sortDesc xs)).length = xs.length + 1
    rw [length_insertDesc, ih]

theorem sortDesc_eq_nil_iff (l : List ((Nat × Nat × Nat) × Record)) :
    sortDesc l = [] ↔ l = [] := by
  constructor
  · intro h
    have := length_sortDesc l
    rw [h] at this
    exact List.length_eq_zero.mp this.symm
  · rintro rfl; rfl

theorem head?_insertDesc_cons (x y : (Nat × Nat × Nat) × Record)
    (ys : List ((Nat × Nat × Nat) × Record)) :
    (insertDesc x (y :: ys)).head? = some (if dateLt x.1 y.1 then y else x) := by
  unfold insertDesc
  split_ifs <;> rfl

/-- The first element of the stable descending sort is the earliest
element of the input that attains the maximal date: every element is
date-≤ it, and everything strictly before its position is date-<. -/
theorem sortDesc_head_spec (l : List ((Nat × Nat × Nat) × Record))
    (x : (Nat × Nat × Nat) × Record) (hx : (sortDesc l).head? = some x) :
    ∃ i : Nat, l[i]? = some x ∧
      (∀ (j : Nat) (y : (Nat × Nat × Nat) × Record),
        l[j]? = some y → ¬ dateLt x.1 y.1) ∧
      (∀ (j : Nat) (y : (Nat × Nat × Nat) × Record),
        j < i → l[j]? = some y → dateLt y.1 x.1) := by
  induction l generalizing x with
  | nil => cases hx
  | cons a t ih =>
    cases hst : sortDesc t with
    | nil =>
      have ht : t = [] := (sortDesc_eq_nil_iff t).mp hst
      subst ht
      have hx2 : (insertDesc a (sortDesc [])).head? = some x := hx
      rw [hst] at hx2
      cases hx2
      refine ⟨0, by simp, ?_, ?_⟩
      · intro j y hj
        cases j with
        | zero =>
          rw [List.getElem?_cons_zero] at hj
          cases hj
          exact dateLt_irrefl _
        | succ j2 =>
          rw [List.getElem?_cons_succ] at hj
          cases hj
      · intro j y hj
        omega
    | cons b s =>
      obtain ⟨i, hib, hmax, hstrict⟩ := ih b (by rw [hst]; rfl)
      have hx2 : (insertDesc a (sortDesc t)).head? = some x := hx
      rw [hst, head?_insertDesc_cons] at hx2
      split_ifs at hx2 with hab
      · cases hx2
        refine ⟨i + 1, by rw [List.getElem?_cons_succ]; exact hib, ?_, ?_⟩
        · intro j y hj
          cases j with
          | zero =>
            rw [List.getElem?_cons_zero] at hj
            cases hj
            exact dateLt_asymm _ _ hab
          | succ j2 =>
            rw [List.getElem?_cons_succ] at hj
            exact hmax j2 y hj
        · intro j y hji hj
          cases j with
          | zero =>
            rw [List.getElem?_cons_zero] at hj
            cases hj
            exact hab
          | succ j2 =>
            rw [List.getElem?_cons_succ] at hj
            exact hstrict j2 y (by omega) hj
      · cases hx2
        refine ⟨0, by simp, ?_, ?_⟩
        · intro j y hj
          cases j with
          | zero =>
            rw [List.getElem?_cons_zero] at hj
            cases hj
            exact dateLt_irrefl _
          | succ j2 =>
            rw [List.getElem?_cons_succ] at hj
            exact not_dateLt_trans _ _ _ hab (hmax j2 y hj)
        · intro j y hj
          omega

theorem candidatesFor_nil (s d c m : String) : candidatesFor [] s d c m = [] := by
  simp [candidatesFor]

/-- C2: when some candidate of `find_recent_price` has a parseable date,
the function returns the candidate whose parsed date is maximal, and
among candidates tied on that maximal date the one appearing earliest in
the original dataset order (`wd` is the in-order list of candidates with
parseable dates paired with those dates; the returned record sits at a
position `i` of `wd` such that no element of `wd` has a later date and
every element before position `i` has a strictly earlier date). -/
theorem find_recent_price_most_recent (data : List Record) (s d c m : String)
    (wd : List ((Nat × Nat × Nat) × Record))
    (hwd : withDatesFor (candidatesFor data s d c m) = wd) (hne : wd ≠ []) :
    ∃ (i : Nat) (dt : Nat × Nat × Nat) (r : Record), wd[i]? = some (dt, r) ∧
      find_recent_price data s d c m = some r ∧
      r ∈ candidatesFor data s d c m ∧
      parseYMD r.date.data = some dt ∧
      (∀ (j : Nat) (dt2 : Nat × Nat × Nat) (r2 : Record),
        wd[j]? = some (dt2, r2) → ¬ dateLt dt dt2) ∧
      (∀ (j : Nat) (dt2 : Nat × Nat × Nat) (r2 : Record),
        j < i → wd[j]? = some (dt2, r2) → dateLt dt2 dt) := by
  have hcne : candidatesFor data s d c m ≠ [] := by
    intro h0
    apply hne
    rw [← hwd, h0]
    rfl
  have hdne : data ≠ [] := by
    intro h0
    subst h0
    exact hcne (candidatesFor_nil s d c m)
  have hsdne : sortDesc wd ≠ [] := by
    intro h0
    exact hne ((sortDesc_eq_nil_iff wd).mp h0)
  cases hsd : sortDesc wd with
  | nil => exact absurd hsd hsdne
  | cons hd tl =>
    obtain ⟨dt, r⟩ := hd
    have hhead : (sortDesc wd).head? = some (dt, r) := by rw [hsd]; rfl
    obtain ⟨i, hi, hmax, hstrict⟩ := sortDesc_head_spec wd (dt, r) hhead
    have hmem : (dt, r) ∈ wd := List.getElem?_mem hi
    rw [← hwd] at hmem
    obtain ⟨a, ha, hmap⟩ := List.mem_filterMap.mp hmem
    obtain ⟨dtv, hdtv, heq⟩ := Option.map_eq_some'.mp hmap
    have har : a = r := congrArg Prod.snd heq
    have hdt : dtv = dt := congrArg Prod.fst heq
    subst har
    subst hdt
    obtain ⟨c0, crest, hcc⟩ : ∃ c0 crest, candidatesFor data s d c m = c0 :: crest := by
      cases hcands : candidatesFor data s d c m with
      | nil => exact absurd hcands hcne
      | cons c0 crest => exact ⟨c0, crest, rfl⟩
    have hfind : find_recent_price data s d c m = some a := by
      unfold find_recent_price
      have hde : data.isEmpty = false := by
        cases data with
        | nil => exact absurd rfl hdne
        | cons dh dtl => rfl
      rw [hde]
      simp only [Bool.false_eq_true, if_false]
      rw [hcc]
      unfold pickBest
      have hwd2 : withDatesFor (c0 :: crest) = wd := by rw [← hcc, hwd]
      rw [hwd2, hsd]
    refine ⟨i, dtv, a, hi, hfind, ha, hdtv, ?_, ?_⟩
    · intro j dt2 r2 hj
      exact hmax j (dt2, r2) hj
    · intro j dt2 r2 hji hj
      exact hstrict j (dt2, r2) hji hj

/-- C2 witness: the design document's Rice example — rows dated
2025-01-01 (price 30) and 2025-03-01 (price 32); the finder returns the
2025-03-01 row. -/
theorem find_recent_price_most_recent_witness :
    withDatesFor (candidatesFor [rRice1, rRice2] ("") ("") ("Rice") ("")) =
      [((2025, 1, 1), rRice1), ((2025, 3, 1), rRice2)] ∧
    find_recent_price [rRice1, rRice2] ("") ("") ("Rice") ("") = some rRice2 ∧
    (∃ (i : Nat) (dt : Nat × Nat × Nat) (r : Record),
      ([((2025, 1, 1), rRice1), ((2025, 3, 1), rRice2)] :
          List ((Nat × Nat × Nat) × Record))[i]? = some (dt, r) ∧
      find_recent_price [rRice1, rRice2] ("") ("") ("Rice") ("") = some r ∧
      r ∈ candidatesFor [rRice1, rRice2] ("") ("") ("Rice") ("") ∧
      parseYMD r.date.data = some dt ∧
      (∀ (j : Nat) (dt2 : Nat × Nat × Nat) (r2 : Record),
        ([((2025, 1, 1), rRice1), ((2025, 3, 1), rRice2)] :
            List ((Nat × Nat × Nat) × Record))[j]? = some (dt2, r2) →
          ¬ dateLt dt dt2) ∧
      (∀ (j : Nat) (dt2 : Nat × Nat × Nat) (r2 : Record), j < i →
        ([((2025, 1, 1), rRice1), ((2025, 3, 1), rRice2)] :
            List ((Nat × Nat × Nat) × Record))[j]? = some (dt2, r2) →
          dateLt dt2 dt)) :=
  ⟨by decide, by decide,
    find_recent_price_most_recent [rRice1, rRice2] ("") ("") ("Rice") ("")
      [((2025, 1, 1), rRice1), ((2025, 3, 1), rRice2)] (by decide) (by decide)⟩

/-- If some candidate has a parseable date or a positive price, the
selection stage cannot come back empty. -/
theorem pickBest_isSome_of (cands : List Record) (r : Record) (hr : r ∈ cands)
    (hor : parseYMD r.date.data ≠ none ∨ 0 < r.price) :
    ∃ q, pickBest cands = some q := by
  obtain ⟨c0, crest, rfl⟩ : ∃ c0 crest, cands = c0 :: crest := by
    cases cands with
    | nil => cases hr
    | cons a l => exact ⟨a, l, rfl⟩
  cases hsd : sortDesc (withDatesFor (c0 :: crest)) with
  | cons hd tl =>
    obtain ⟨dt0, r0⟩ := hd
    refine ⟨r0, ?_⟩
    unfold pickBest
    rw [hsd]
  | nil =>
    have hwdnil : withDatesFor (c0 :: crest) = [] := (sortDesc_eq_nil_iff _).mp hsd
    have hallnone : ∀ x ∈ c0 :: crest, parseYMD x.date.data = none := by
      intro x hx
      have hmapn := List.filterMap_eq_nil_iff.mp hwdnil x hx
      cases hpx : parseYMD x.date.data with
      | none => rfl
      | some v => rw [hpx] at hmapn; cases hmapn
    have hpos : 0 < r.price := by
      rcases hor with hp | hp
      · exact absurd (hallnone r hr) hp
      · exact hp
    have hmemp : r.price ∈
        (c0 :: crest).filterMap (fun x => if 0 < x.price then some x.price else none) := by
      apply List.mem_filterMap.mpr
      exact ⟨r, hr, by rw [if_pos hpos]⟩
    have hpne : ((c0 :: crest).filterMap
        (fun x => if 0 < x.price then some x.price else none)).isEmpty = false := by
      cases hl : (c0 :: crest).filterMap
          (fun x => if 0 < x.price then some x.price else none) with
      | nil => rw [hl] at hmemp; cases hmemp
      | cons p pl => rfl
    refine ⟨{ c0 with price := median ((c0 :: crest).filterMap
      (fun x => if 0 < x.price then some x.price else none)) }, ?_⟩
    unfold pickBest
    rw [hsd]
    simp only [hpne, Bool.false_eq_true, if_false]

/-- C7 (amended wording aside, this is the spec's §4.2 steps 5-6): with a
non-empty candidate list none of whose dates parse, the finder returns
the first candidate carrying the median of the positive candidate prices,
and none when there is no positive price at all. -/
theorem find_recent_price_median_fallback (data : List Record) (s d c m : String)
    (c0 : Record) (crest : List Record)
    (hc : candidatesFor data s d c m = c0 :: crest)
    (hnd : ∀ r ∈ c0 :: crest, parseYMD r.date.data = none)
    (ps : List ℚ)
    (hps : (c0 :: crest).filterMap
      (fun r => if 0 < r.price then some r.price else none) = ps) :
    (ps ≠ [] → find_recent_price data s d c m = some { c0 with price := median ps }) ∧
    (ps = [] → find_recent_price data s d c m = none) := by
  have hdne : data ≠ [] := by
    intro h0
    subst h0
    rw [candidatesFor_nil] at hc
    cases hc
  have hde : data.isEmpty = false := by
    cases data with
    | nil => exact absurd rfl hdne
    | cons dh dtl => rfl
  have hwdnil : withDatesFor (c0 :: crest) = [] := by
    apply List.filterMap_eq_nil_iff.mpr
    intro r hr
    rw [hnd r hr]
    rfl
  have hsdnil : sortDesc (withDatesFor (c0 :: crest)) = [] := by
    rw [hwdnil]
    rfl
  have hmain : find_recent_price data s d c m =
      (if ps.isEmpty then none else some { c0 with price := median ps }) := by
    unfold find_recent_price
    rw [hde]
    simp only [Bool.false_eq_true, if_false]
    rw [hc]
    unfold pickBest
    rw [hsdnil, hps]
  constructor
  · intro hne
    have hpe : ps.isEmpty = false := by
      cases ps with
      | nil => exact absurd rfl hne
      | cons p pl => rfl
    rw [hmain]
    simp only [hpe, Bool.false_eq_true, if_false]
  · intro hnil
    rw [hmain, hnil]
    rfl

/-- C7 witness: three dateless candidates with prices 10, 20, 30 — the
finder returns the first candidate's fields carrying the median price
20, and on an all-zero-price variant it returns none. -/
theorem find_recent_price_median_witness :
    find_recent_price [rMed1, rMed2, rMed3] ("") ("") ("x") ("") =
      some { rMed1 with price := median [10, 20, 30] } ∧
    median [10, 20, 30] = 20 :=
  ⟨(find_recent_price_median_fallback [rMed1, rMed2, rMed3] ("") ("") ("x") ("")
      rMed1 [rMed2, rMed3] (by decide) (by decide) [10, 20, 30] (by decide)).1
      (by decide),
   by decide⟩

/-- C5 (first half, and the existence half under the amendment's extra
proviso): when the full filter pass over the dataset comes back empty
the finder gets its candidates from crop-only matching over the entire
dataset — state, district and market dropped — and it returns a record
provided some crop-matching row has a parseable date or a positive
price. -/
theorem find_recent_price_relaxation (data : List Record) (s d c m : String)
    (h : data.filter (fun r => matchesRow s d c m r) = []) :
    find_recent_price data s d c m =
      pickBest (data.filter (fun r => lowerStr r.crop == lowerStr c)) ∧
    ((∃ r ∈ data, (lowerStr r.crop == lowerStr c) = true ∧
        (parseYMD r.date.data ≠ none ∨ 0 < r.price)) →
      ∃ r2, find_recent_price data s d c m = some r2) := by
  have hcand : candidatesFor data s d c m =
      data.filter (fun r => lowerStr r.crop == lowerStr c) := by
    unfold candidatesFor
    simp only [h, if_pos]
  have hmain : find_recent_price data s d c m =
      pickBest (data.filter (fun r => lowerStr r.crop == lowerStr c)) := by
    cases data with
    | nil => rfl
    | cons a l =>
      unfold find_recent_price
      rw [show ((a :: l).isEmpty = false) from rfl]
      simp only [Bool.false_eq_true, if_false]
      rw [hcand]
  refine ⟨hmain, ?_⟩
  rintro ⟨r, hrd, hcrop, hor⟩
  have hrmem : r ∈ data.filter (fun x => lowerStr x.crop == lowerStr c) :=
    List.mem_filter.mpr ⟨hrd, hcrop⟩
  obtain ⟨q, hq⟩ := pickBest_isSome_of
    (data.filter (fun x => lowerStr x.crop == lowerStr c)) r hrmem hor
  exact ⟨q, by rw [hmain]; exact hq⟩

/-- C5 witness: a dataset whose single row matches the crop but not the
requested state; the relaxation pass returns it. -/
theorem find_recent_price_relaxation_witness :
    ∃ r2, find_recent_price [rPos] ("B") ("") ("rice") ("") = some r2 :=
  (find_recent_price_relaxation [rPos] ("B") ("") ("rice") ("")
    (by decide)).2 (by decide)

/-- C5 counterexample to the claim's final sentence as stated: the
dataset's one row matches the crop (and nothing matches the full
filter), yet — its date being unparseable and its price 0 — the finder
returns none, not a record. -/
theorem find_recent_price_relaxation_counterexample :
    [rZero].filter (fun r => matchesRow ("B") ("") ("rice") ("") r) = [] ∧
    [rZero].filter (fun r => lowerStr r.crop == lowerStr ("rice")) = [rZero] ∧
    find_recent_price [rZero] ("B") ("") ("rice") ("") = none := by
  decide

/-- C10: when the request state is the empty string the state check is
skipped entirely (Python truthiness guard): the row's state value plays
no role, and matching degenerates to the crop/district/market clauses. -/
theorem matchesRow_empty_state (d c m s2 : String) (r : Record) :
    matchesRow ("") d c m r = matchesRow ("") d c m { r with state := s2 } ∧
    (matchesRow ("") d c m r = true ↔
      (lowerStr r.crop = lowerStr c ∧
       (d = "" ∨ r.district = "" ∨ lowerStr r.district = lowerStr d) ∧
       (m = "" ∨ r.market = "" ∨ lowerStr r.market = lowerStr m))) := by
  constructor
  · unfold matchesRow
    simp
  · unfold matchesRow
    split_ifs with hcrop hstate hdist hmkt <;>
      simp_all <;> tauto

theorem base_map_lookup_ge (k : String) (v : ℚ)
    (h : base_map.lookup k = some v) : 10 ≤ v := by
  simp only [base_map, List.lookup] at h
  repeat' split at h
  all_goals first
    | (cases h; norm_num)
    | cases h

theorem current_fallback_ge (k : String) (dr : ℚ) (hdr : 10 ≤ dr) :
    1/100 ≤ (base_map.lookup k).getD dr := by
  cases hl : base_map.lookup k with
  | none =>
    show (1:ℚ)/100 ≤ dr
    linarith
  | some v =>
    have hv := base_map_lookup_ge k v hl
    show (1:ℚ)/100 ≤ v
    linarith

/-- On a good month the handler's output is fully determined by the
resolved current price triple. -/
theorem predict_ok_eq (data : List Record) (nowY nowM : Nat) (changes : Nat → ℚ)
    (draw : ℚ) (req : PredictRequest) (ty tm dd : Nat)
    (hm : month_to_date req.month = some (ty, tm, dd)) :
    predict data nowY nowM changes draw req =
      .ok { state := req.state, district := req.district, market := req.market,
            crop := req.crop, month := req.month,
            unit := (resolveCurrent data draw req).2.1,
            currentPrice := round2 (resolveCurrent data draw req).1,
            predictedPrice := round2 (simple_predict (resolveCurrent data draw req).1
              (monthsAheadFor nowY nowM ty tm) req.crop changes),
            method := (resolveCurrent data draw req).2.2 } := by
  unfold predict
  rw [hm]

/-- Under the amendment's proviso the resolved current price is at least
one cent. -/
theorem resolveCurrent_ge (data : List Record) (draw : ℚ) (req : PredictRequest)
    (hdraw : 10 ≤ draw)
    (hrec : ∀ r, find_recent_price data req.state (req.district.getD (""))
      req.crop (req.market.getD ("")) = some r → 0 < r.price → 1/100 ≤ r.price) :
    1/100 ≤ (resolveCurrent data draw req).1 := by
  unfold resolveCurrent
  cases hfr : find_recent_price data req.state (req.district.getD (""))
      req.crop (req.market.getD ("")) with
  | none => exact current_fallback_ge _ draw hdraw
  | some r =>
    show 1/100 ≤ (if 0 < r.price
        then (r.price, (if r.unit = "" then ("kg") else r.unit), ("mock-data"))
        else ((base_map.lookup (lowerStr req.crop)).getD draw, ("kg"), ("synthetic"))).1
    by_cases hp : 0 < r.price
    · rw [if_pos hp]
      exact hrec r hfr hp
    · rw [if_neg hp]
      exact current_fallback_ge _ draw hdraw

/-- C1 as amended: both returned prices are strictly positive provided
the resolved base price is at least 0.01 — automatic for the synthetic
branch (base table ≥ 15, uniform draw ≥ 10) and for any dataset record
whose positive price is at least a cent.  (The unamended claim fails for
dataset prices in (0, 0.005), which round to 0.00; see the
counterexample.) -/
theorem predict_prices_positive (data : List Record) (nowY nowM : Nat)
    (changes : Nat → ℚ) (draw : ℚ) (req : PredictRequest) (resp : PredictResponse)
    (hdraw : 10 ≤ draw)
    (hrec : ∀ r, find_recent_price data req.state (req.district.getD (""))
      req.crop (req.market.getD ("")) = some r → 0 < r.price → 1/100 ≤ r.price)
    (hok : predict data nowY nowM changes draw req = .ok resp) :
    0 < resp.currentPrice ∧ 0 < resp.predictedPrice := by
  cases hm : month_to_date req.month with
  | none =>
    unfold predict at hok
    rw [hm] at hok
    cases hok
  | some trip =>
    obtain ⟨ty, tm, dd⟩ := trip
    rw [predict_ok_eq data nowY nowM changes draw req ty tm dd hm] at hok
    have hresp := (Except.ok.injEq _ _ ).mp hok
    subst hresp
    have hcur : 1/100 ≤ (resolveCurrent data draw req).1 :=
      resolveCurrent_ge data draw req hdraw hrec
    constructor
    · exact round2_pos _ hcur
    · exact round2_pos _ (simple_predict_ge _ _ _ _ hcur)

/-- C1 witness: synthetic branch, empty dataset, Tomato two months out —
both prices strictly positive. -/
theorem predict_prices_positive_witness :
    0 < respTom.currentPrice ∧ 0 < respTom.predictedPrice :=
  predict_prices_positive [] 2025 1 (fun _ => 0) 20 reqTom respTom
    (by norm_num)
    (by
      intro r hr hp
      rw [show find_recent_price [] reqTom.state
          ((reqTom.district).getD ("")) reqTom.crop ((reqTom.market).getD ("")) =
          none from rfl] at hr
      cases hr)
    (predict_ok_eq [] 2025 1 (fun _ => 0) 20 reqTom 2025 3 1 (by decide))

/-- C1 counterexample to the claim as stated: a dataset record with the
positive price 0.001 is served through the mock-data branch in its own
month, and both returned prices round to 0 — not strictly positive. -/
theorem predict_prices_positive_counterexample :
    0 < rTiny.price ∧
    respCurrent (predict [rTiny] 2025 1 (fun _ => 0) 20 reqTiny) = some 0 ∧
    respPredicted (predict [rTiny] 2025 1 (fun _ => 0) 20 reqTiny) = some 0 := by
  have hm : month_to_date reqTiny.month = some (2025, 1, 1) := by decide
  have hres : resolveCurrent [rTiny] 20 reqTiny =
      (mkRat 1 1000, ("kg"), ("mock-data")) := by decide
  have hr2 : round2 (mkRat 1 1000) = 0 := by
    unfold round2
    rw [Rat.mkRat_eq_div]
    norm_num [round_eq]
  have hma : monthsAheadFor 2025 1 2025 1 = 0 := by decide
  have hpe := predict_ok_eq [rTiny] 2025 1 (fun _ => 0) 20 reqTiny 2025 1 1 hm
  refine ⟨by decide, ?_, ?_⟩
  · rw [hpe]
    unfold respCurrent
    simp only [Except.toOption, Option.map, hres, hr2]
  · rw [hpe]
    unfold respPredicted
    simp only [Except.toOption, Option.map, hres, hma,
      simple_predict_zero, round2_round2, hr2]
    norm_num [round2]

theorem data_append (s t : String) : (s ++ t).data = s.data ++ t.data := by
  cases s
  cases t
  rfl

theorem daysInMonth_pos (y m : Nat) : 1 ≤ daysInMonth y m := by
  unfold daysInMonth
  split_ifs <;> norm_num

/-- Every strict YYYY-MM month string parses once "-01" is appended:
the handler cannot reject it. -/
theorem yyyymm_parses (s : String) (h : isYYYYMM s = true) :
    ∃ y m, month_to_date s = some (y, m, 1) := by
  rcases hs : s.data with _ | ⟨y1, _ | ⟨y2, _ | ⟨y3, _ | ⟨y4, _ | ⟨h5, _ | ⟨m1, _ | ⟨m2, _ | ⟨x, rest⟩⟩⟩⟩⟩⟩⟩⟩ <;>
      simp only [isYYYYMM, hs] at h <;>
    try exact absurd h (by decide)
  case cons.cons.cons.cons.cons.cons.cons.nil =>
    simp only [Bool.and_eq_true, beq_iff_eq, decide_eq_true_eq] at h
    obtain ⟨⟨⟨⟨⟨⟨⟨⟨⟨hd1, hd2⟩, hd3⟩, hd4⟩, hdash⟩, hd5⟩, hd6⟩, hy⟩, hm1⟩, hm2⟩ := h
    subst hdash
    refine ⟨digitsToNat [y1, y2, y3, y4], digitsToNat [m1, m2], ?_⟩
    unfold month_to_date
    rw [data_append, hs]
    have hda : ('-').isDigit = false := rfl
    have e1 : List.takeWhile Char.isDigit
        [y1, y2, y3, y4, '-', m1, m2, '-', '0', '1'] = [y1, y2, y3, y4] := by
      simp [List.takeWhile_cons, hd1, hd2, hd3, hd4, hda]
    have e2 : List.dropWhile Char.isDigit
        [y1, y2, y3, y4, '-', m1, m2, '-', '0', '1'] =
        '-' :: [m1, m2, '-', '0', '1'] := by
      simp [List.dropWhile_cons, hd1, hd2, hd3, hd4, hda]
    have e3 : List.takeWhile Char.isDigit [m1, m2, '-', '0', '1'] = [m1, m2] := by
      simp [List.takeWhile_cons, hd5, hd6, hda]
    have e4 : List.dropWhile Char.isDigit [m1, m2, '-', '0', '1'] =
        '-' :: ['0', '1'] := by
      simp [List.dropWhile_cons, hd5, hd6, hda]
    have e5 : parseDay (['0', '1'] : List Char) = some 1 := rfl
    simp only [parseYMD, List.cons_append, List.nil_append, e1, e2, e3, e4, e5,
      List.length_cons, List.length_nil]
    norm_num
    intro hP
    have h0 := hP hy hm1 hm2
    have h1 := daysInMonth_pos (digitsToNat [y1, y2, y3, y4]) (digitsToNat [m1, m2])
    omega

/-- C8 as amended: the handler answers 400 exactly when `month + "-01"`
fails the `%Y-%m-%d` parse; every strict YYYY-MM month is therefore
accepted with 200, but the converse of the claim fails — the lenient
parse also accepts forms such as "2025-1" (see the counterexample). -/
theorem month_validation (data : List Record) (nowY nowM : Nat) (changes : Nat → ℚ)
    (draw : ℚ) (req : PredictRequest) :
    (isYYYYMM req.month = true →
      statusOf (predict data nowY nowM changes draw req) = 200) ∧
    (statusOf (predict data nowY nowM changes draw req) = 400 ↔
      month_to_date req.month = none) := by
  cases hm : month_to_date req.month with
  | none =>
    have herr : predict data nowY nowM changes draw req = .error 400 := by
      unfold predict
      rw [hm]
    constructor
    · intro hY
      obtain ⟨y, m, hp⟩ := yyyymm_parses req.month hY
      rw [hp] at hm
      cases hm
    · rw [herr]
      simp [statusOf]
  | some trip =>
    obtain ⟨ty, tm, dd⟩ := trip
    have hok := predict_ok_eq data nowY nowM changes draw req ty tm dd hm
    rw [hok]
    constructor
    · intro _
      rfl
    · simp [statusOf]

/-- C8 witness: "2025-03" is strict YYYY-MM and accepted with 200;
"2025-13" (month 13) fails the parse and yields 400 ("December"
likewise). -/
theorem month_validation_witness :
    statusOf (predict [] 2025 1 (fun _ => 0) 20 reqTom) = 200 ∧
    statusOf (predict [] 2025 1 (fun _ => 0) 20 reqBad) = 400 ∧
    statusOf (predict [] 2025 1 (fun _ => 0) 20 reqDec) = 400 :=
  ⟨(month_validation [] 2025 1 (fun _ => 0) 20 reqTom).1 (by decide),
   (month_validation [] 2025 1 (fun _ => 0) 20 reqBad).2.mpr (by decide),
   (month_validation [] 2025 1 (fun _ => 0) 20 reqDec).2.mpr (by decide)⟩

/-- C8 counterexample to the claim's "if and only if": "2025-1" is not
in YYYY-MM format, yet the handler accepts it with 200 instead of
rejecting it with 400. -/
theorem month_validation_counterexample :
    isYYYYMM ("2025-1") = false ∧
    statusOf (predict [] 2025 1 (fun _ => 0) 20 reqLenient) = 200 := by
  refine ⟨by decide, ?_⟩
  rw [predict_ok_eq [] 2025 1 (fun _ => 0) 20 reqLenient 2025 1 1 (by decide)]
  rfl

/-- A raw row with no `None` cells loads successfully and as specified. -/
theorem loadRow_ok (raw : RawRow) (h : noNull raw) :
    ∃ rec, loadRow raw = .ok rec ∧ rowSpec raw rec := by
  obtain ⟨h1, h2, h3, h4, h5, h6⟩ := h
  unfold loadRow
  rw [if_neg (by tauto)]
  refine ⟨_, rfl, rfl, rfl, rfl, rfl, rfl, ?_, ?_⟩
  · show (if trimStr (strOf raw.unit ("kg")) = "" then ("kg")
      else trimStr (strOf raw.unit ("kg"))) ≠ ""
    split_ifs with hu
    · decide
    · exact hu
  · intro hpf
    cases hp : raw.price with
    | absent => rfl
    | null => rfl
    | val s2 =>
      show (if s2 = "" then 0 else (parseFloat s2).getD 0) = 0
      by_cases hs2 : s2 = ""
      · rw [if_pos hs2]
      · rw [if_neg hs2, hpf s2 hp hs2]
        rfl

/-- All-good rows load in order, one record per row. -/
theorem mapM_loadRow_ok (rows : List RawRow) (h : ∀ r ∈ rows, noNull r) :
    ∃ recs, rows.mapM loadRow = .ok recs ∧ recs.length = rows.length ∧
      List.Forall₂ rowSpec rows recs := by
  induction rows with
  | nil => exact ⟨[], rfl, rfl, List.Forall₂.nil⟩
  | cons r rs ih =>
    obtain ⟨rec, hlr, hspec⟩ := loadRow_ok r (h r (by simp))
    obtain ⟨recs, hrecs, hlen, hfa⟩ := ih (fun x hx => h x (by simp [hx]))
    refine ⟨rec :: recs, ?_, by simp [hlen], List.Forall₂.cons hspec hfa⟩
    rw [List.mapM_cons, hlr, hrecs]
    rfl

/-- C9 as amended: a missing file gives the empty dataset, and every row
whose cells are all present strings (or whose columns are missing from
the header) is kept — trimmed, with price defaulting to 0.0 on any parse
failure and unit defaulting to "kg" — with no error raised.  (The
unamended claim fails on data rows shorter than the header, whose `None`
cells crash `.strip()`; see the counterexample.) -/
theorem load_mock_data_spec (rows : List RawRow) (h : ∀ r ∈ rows, noNull r) :
    load_mock_data none = .ok [] ∧
    ∃ recs, load_mock_data (some rows) = .ok recs ∧
      recs.length = rows.length ∧ List.Forall₂ rowSpec rows recs := by
  exact ⟨rfl, mapM_loadRow_ok rows h⟩

/-- C9 witness: a complete row with padded cells, an unparseable price
and a blank unit loads as the trimmed, defaulted record. -/
theorem load_mock_data_spec_witness :
    load_mock_data none = .ok [] ∧
    ∃ recs, load_mock_data (some [rawGood]) = .ok recs ∧
      recs.length = [rawGood].length ∧ List.Forall₂ rowSpec [rawGood] recs :=
  load_mock_data_spec [rawGood] (by decide)

/-- C9 counterexample to the claim as stated: a CSV data row shorter
than the header (here `"X,Y"` against the seven-column header) leaves
`None` cells, and the loader's `.strip()` call on one of them raises an
uncaught `AttributeError` instead of keeping the row. -/
theorem load_mock_data_counterexample :
    load_mock_data (some [rawShort]) =
      .error ("AttributeError: NoneType object has no attribute strip") := by
  rfl
